import Mathlib

/-!
Verification of the vsls (Live Share) command tunnel and bidirectional
path-translation engine of this repository.

The development shallowly embeds the code of `src/vsls/host.ts`,
`src/vsls/guest.ts` and `src/git/models/repository.ts`.  URIs are modelled by
their path strings (the scheme plays no role in any of the path logic).
JavaScript strings become Lean `String`s; the dynamically built
`RegExp` alternations become explicit alternation matchers over the same
path lists, with the `gi` flags and the `[\\/|\\]` separator class modelled
character by character.

Code of this repository that is referenced but not shipped under `src/`
(`Strings.normalizePath`, `vslsUriRootRegex` from `src/vsls/vsls.ts`) and the
external Live Share URI converters are modelled from the specification; each
such definition carries a doc comment starting with `Modelled from the spec:`.
-/

/-- Boolean prefix test on character lists, mirroring JavaScript
`String.prototype.startsWith` once both strings are viewed as char lists. -/
def isPrefixL : List Char → List Char → Bool
  | [], _ => true
  | _ :: _, [] => false
  | a :: as, b :: bs => a == b && isPrefixL as bs

/-- Boolean suffix test on character lists, mirroring JavaScript
`String.prototype.endsWith` once both strings are viewed as char lists. -/
def isSuffixL (a b : List Char) : Bool := isPrefixL a.reverse b.reverse

/-- JavaScript `a.startsWith(b)` for `String`. -/
def strStartsWith (a b : String) : Bool := isPrefixL b.data a.data

/-- JavaScript `a.endsWith(b)` for `String`. -/
def strEndsWith (a b : String) : Bool := isSuffixL b.data a.data

/-- JavaScript `s.substr(0, n)`. -/
def strTake (s : String) (n : Nat) : String := String.mk (s.data.take n)

/-- JavaScript `s.substr(n)`. -/
def strDrop (s : String) (n : Nat) : String := String.mk (s.data.drop n)

/-- Length of a string in characters. -/
def strLength (s : String) : Nat := s.data.length

/-- JavaScript `s.toLowerCase()` (ASCII, which is all the code relies on). -/
def strToLower (s : String) : String := String.mk (s.data.map Char.toLower)

/-- Fuel-driven decimal digit expansion; `fuel` bounds the recursion depth so
the definition is structural (and hence kernel-reducible).  Any `fuel ≥ n + 1`
is more than the digit count of `n`. -/
def natCharsAux : Nat → Nat → List Char
  | 0, _ => []
  | fuel + 1, n =>
    if n < 10 then [Nat.digitChar n]
    else natCharsAux fuel (n / 10) ++ [Nat.digitChar (n % 10)]

/-- Decimal digit characters of a natural number, most significant first;
this is what the template literal `${folder.index}` produces in JavaScript. -/
def natChars (n : Nat) : List Char := natCharsAux (n + 1) n

/-- Decimal rendering of a natural number as a string. -/
def natStr (n : Nat) : String := String.mk (natChars n)

/-- One collaboration workspace folder: its stable index and the real
(host-side) absolute path of its root. -/
structure WorkspaceFolder where
  index : Nat
  rootPath : String
deriving DecidableEq

/-- Virtual root alias string of a folder: the path `/~<index>`. -/
def aliasOf (f : WorkspaceFolder) : String := "/~" ++ natStr f.index

/-- Modelled from the spec: VS Code's `workspace.getWorkspaceFolder`, the
folder-list capability — the first workspace folder whose root contains the
given real path (the root itself or any path below it). -/
def getWorkspaceFolder (folders : List WorkspaceFolder) (p : String) :
    Option WorkspaceFolder :=
  folders.find? fun f => p == f.rootPath || isPrefixL (f.rootPath ++ "/").data p.data

/-- Modelled from the spec: the underlying Live Share converter
`_api.convertLocalUriToShared` — "a deterministic mapping between a real
absolute path and a virtual path of the form `/~<folderIndex>[/<relative-path>]`";
a path in no known folder is passed through unchanged. -/
def rawLocalToShared (folders : List WorkspaceFolder) (p : String) : String :=
  match getWorkspaceFolder folders p with
  | some f => aliasOf f ++ strDrop p (strLength f.rootPath)
  | none => p

/-- Relative remainder of a virtual path behind a folder's root alias, when the
alias is a prefix ending at a path-component boundary. -/
def aliasRest (f : WorkspaceFolder) (p : String) : Option String :=
  if isPrefixL (aliasOf f).data p.data then
    let rest := strDrop p (strLength (aliasOf f))
    if rest == "" || isPrefixL ['/'] rest.data then some rest else none
  else none

/-- Modelled from the spec: the underlying Live Share converter
`_api.convertSharedUriToLocal` — a virtual path rooted in a known folder has
the virtual prefix stripped and the corresponding real root substituted; any
other path is passed through unchanged. -/
def rawSharedToLocal (folders : List WorkspaceFolder) (p : String) : String :=
  match folders.findSome? (fun f => (aliasRest f p).map (fun r => f.rootPath ++ r)) with
  | some q => q
  | none => p

/-- Modelled from the spec: `vslsUriRootRegex` from `src/vsls/vsls.ts` — the
bare virtual root alias pattern: a leading path separator, a literal `~`, one
or more digits, then end of string (no trailing separator). -/
def isVslsRoot (s : String) : Bool :=
  match s.data with
  | c :: t :: rest => (c == '/' || c == '\\') && t == '~' && !rest.isEmpty && rest.all Char.isDigit
  | _ => false

/-- Embeds `VslsHostService.convertLocalUriToShared` (src/vsls/host.ts:138-158).
`workspace.getWorkspaceFolder(localUri)!` is a non-null assertion in the
source; the `none` branches model the (never exercised here) failure path by
passing the raw result through. -/
def convertLocalUriToShared (folders : List WorkspaceFolder) (localPath : String) : String :=
  let sharedPath := rawLocalToShared folders localPath
  if strEndsWith sharedPath localPath then
    if strLength sharedPath = strLength localPath then
      match getWorkspaceFolder folders localPath with
      | some folder => "/~" ++ natStr folder.index
      | none => sharedPath
    else strTake sharedPath (strLength sharedPath - strLength localPath)
  else if !strStartsWith sharedPath "/~" then
    match getWorkspaceFolder folders localPath with
    | some folder => aliasOf folder ++ sharedPath
    | none => sharedPath
  else sharedPath

/-- Embeds the delegation part of `VslsHostService.convertSharedUriToLocal`
(src/vsls/host.ts:165-172): the underlying conversion followed by the
suffix-stripping fix-up. -/
def convertSharedUriToLocalCore (folders : List WorkspaceFolder) (sharedPath : String) : String :=
  let localPath := rawSharedToLocal folders sharedPath
  if strEndsWith localPath sharedPath then
    strTake localPath (strLength localPath - strLength sharedPath)
  else localPath

/-- Embeds `VslsHostService.convertSharedUriToLocal` (src/vsls/host.ts:160-173):
a bare root alias first receives a trailing separator, then the underlying
conversion runs. -/
def convertSharedUriToLocal (folders : List WorkspaceFolder) (sharedPath : String) : String :=
  convertSharedUriToLocalCore folders
    (if isVslsRoot sharedPath then sharedPath ++ "/" else sharedPath)

/-- Separator normalization: every backslash becomes a forward slash. -/
def normalizeSeps (l : List Char) : List Char :=
  l.map fun c => if c == '\\' then '/' else c

/-- Modelled from the spec: `Strings.normalizePath` with no options —
separators normalized to forward slashes; the empty string is returned as is. -/
def normalizePath (s : String) : String :=
  if s.data.isEmpty then s else String.mk (normalizeSeps s.data)

/-- Modelled from the spec: `Strings.normalizePath` with
`stripTrailingSlash: true` — separators normalized, then one trailing slash
removed. -/
def normalizePathStrip (s : String) : String :=
  if s.data.isEmpty then s
  else
    let n := normalizeSeps s.data
    String.mk (if n.getLast? == some '/' then n.dropLast else n)

/-- Modelled from the spec: `Strings.normalizePath` with
`addLeadingSlash: true` — separators normalized, then a leading slash added
when the first character is not already a slash. -/
def normalizePathLead (s : String) : String :=
  if s.data.isEmpty then s
  else
    let n := normalizeSeps s.data
    String.mk (if n.head? == some '/' then n else '/' :: n)

/-- Character-level matching of one compiled-pattern character against one
input character.  The guest compiles its matchers by joining the known paths
with `|` and replacing every separator with the character class `[\\/|\\]`
(which contains backslash, forward slash and pipe), under the `i` flag; so a
separator in a known path matches any of those three characters, `.` is the
usual wildcard, and every other character matches case-insensitively.  (The
known paths contain no further regex metacharacters.) -/
def charMatches (p c : Char) : Bool :=
  if p == '/' || p == '\\' then c == '/' || c == '\\' || c == '|'
  else if p == '.' then c != '\n'
  else p.toLower == c.toLower

/-- Length of input consumed when one alternative matches at the head of the
input, if it does. -/
def altMatchLen : List Char → List Char → Option Nat
  | [], _ => some 0
  | _ :: _, [] => none
  | p :: ps, c :: cs =>
    if charMatches p c then (altMatchLen ps cs).map (· + 1) else none

/-- First alternative (in order, as JavaScript alternation does) matching at
the head of the input; returns the consumed length. -/
def firstAltLen (alts : List String) (s : List Char) : Option Nat :=
  alts.findSome? fun a => altMatchLen a.data s

/-- Global regex replacement over an alternation of known paths, mirroring
`String.prototype.replace` with a `g`-flagged alternation and a callback that
looks the matched text up and falls back to the matched text on a miss
(src/vsls/guest.ts:105-108, 121-124, 153-156).  An empty match is replaced and
the scan advances one character, as JavaScript does. -/
def replaceFromAux (alts : List String) (lookup : String → Option String) :
    Nat → List Char → List Char
  | _, [] =>
    match firstAltLen alts [] with
    | some _ => ((lookup "").getD "").data
    | none => []
  | 0, c :: cs => c :: cs
  | fuel + 1, c :: cs =>
    match firstAltLen alts (c :: cs) with
    | some 0 => ((lookup "").getD "").data ++ c :: replaceFromAux alts lookup fuel cs
    | some (n + 1) =>
      let matched := String.mk (List.take (n + 1) (c :: cs))
      ((lookup matched).getD matched).data ++ replaceFromAux alts lookup fuel (List.drop n cs)
    | none => c :: replaceFromAux alts lookup fuel cs

/-- Scan driver: the fuel equals the input length, which bounds the number of
scan steps (each consumes at least one character), so the out-of-fuel branch
of `replaceFromAux` is never reached. -/
def replaceFrom (alts : List String) (lookup : String → Option String)
    (s : List Char) : List Char :=
  replaceFromAux alts lookup s.length s

/-- String-level global replacement. -/
def regexReplace (alts : List String) (lookup : String → Option String) (s : String) : String :=
  String.mk (replaceFrom alts lookup s.data)

/-- Existence of a match at some position (including the end-of-string
position, where an empty alternative still matches). -/
def regexTestFrom (alts : List String) : List Char → Bool
  | [] => (firstAltLen alts []).isSome
  | c :: cs => (firstAltLen alts (c :: cs)).isSome || regexTestFrom alts cs

/-- JavaScript `regex.test(s)` for the compiled alternation.  In the source
every `test` call on the `g`-flagged regexes starts from index 0 because each
successful `test` is followed by a `replace` that resets `lastIndex`, so the
stateless model is faithful. -/
def regexTest (alts : List String) (s : String) : Bool := regexTestFrom alts s.data

/-- Alternation list of a compiled matcher.  Joining an empty collection of
paths with `|` yields the empty pattern string, and `new RegExp("()")` matches
the empty string: the compiled alternation of zero paths is the single empty
alternative. -/
def compileAlts (vals : List String) : List String :=
  if vals.isEmpty then [""] else vals

/-- JavaScript `Map.prototype.set` on an insertion-ordered association list:
overwrite in place or append. -/
def mapSet (m : List (String × String)) (k v : String) : List (String × String) :=
  match m with
  | [] => [(k, v)]
  | (k0, v0) :: rest => if k0 == k then (k0, v) :: rest else (k0, v0) :: mapSet rest k v

/-- JavaScript `Map.prototype.get`. -/
def mapGet (m : List (String × String)) (k : String) : Option String :=
  match m with
  | [] => none
  | (k0, v0) :: rest => if k0 == k then some v0 else mapGet rest k

/-- JavaScript `Map.prototype.values` (insertion order). -/
def mapValues (m : List (String × String)) : List String := m.map (·.2)

/-- Guest-side path mapping cache contents: the two insertion-ordered maps
`_localToSharedPaths` and `_sharedToLocalPaths`. -/
structure PathMappings where
  localToShared : List (String × String)
  sharedToLocal : List (String × String)
deriving DecidableEq

/-- Embeds `VslsGuestService.cachePathMapping` (src/vsls/guest.ts:47-72): the
`WorkspacePaths` response pairs `(localUri, sharedUri)` — modelled directly by
their filesystem path strings — are normalized and entered into both maps. -/
def cachePathMapping (paths : List (String × String)) : PathMappings :=
  paths.foldl
    (fun st p =>
      { localToShared := mapSet st.localToShared (normalizePath p.1) (normalizePath p.2)
        sharedToLocal := mapSet st.sharedToLocal (normalizePath p.2) (normalizePath p.1) })
    { localToShared := [], sharedToLocal := [] }

/-- Alternation of `_localPathsRegex`, built from
`_sharedToLocalPaths.values()` (the local paths). -/
def localAlts (m : PathMappings) : List String := compileAlts (mapValues m.sharedToLocal)

/-- Alternation of `_sharedPathsRegex`, built from
`_localToSharedPaths.values()` (the shared paths). -/
def sharedAlts (m : PathMappings) : List String := compileAlts (mapValues m.localToShared)

/-- JavaScript `leadingSlashRegex.test(arg[0])` with
`leadingSlashRegex = /^[\/|\\]/` (src/vsls/guest.ts:16): the first character
is a forward slash, a pipe, or a backslash; false on the empty string. -/
def leadingSepTest (s : String) : Bool :=
  match s.data with
  | c :: _ => c == '/' || c == '|' || c == '\\'
  | [] => false

/-- One element of the `git` argument array: a string token or any other
value (non-strings are never rewritten). -/
inductive GitArg where
  | str (s : String)
  | other
deriving DecidableEq

/-- Final value of one string token occurring after `--` in
`VslsGuestService.git` (src/vsls/guest.ts:95-111).  The source first splices
the stripped token into `args`, then tests the ORIGINAL token against
`_sharedPathsRegex` and, on a match, splices the replacement of the
normalized ORIGINAL token, overwriting the stripped value. -/
def processArg (m : PathMappings) (cwd : String) (arg : String) : String :=
  let stripped := if leadingSepTest arg && cwd == "/~0" then strDrop arg 1 else arg
  if regexTest (sharedAlts m) arg then
    regexReplace (sharedAlts m) (mapGet m.sharedToLocal) (normalizePath arg)
  else stripped

/-- The argument-scanning loop of `VslsGuestService.git`
(src/vsls/guest.ts:84-112): `files` records whether a literal `--` token has
been seen; only string tokens after it are rewritten. -/
def processArgs (m : PathMappings) (cwd : String) : Bool → List GitArg → List GitArg
  | _, [] => []
  | files, a :: rest =>
    match a with
    | .str s =>
      if s = "--" then a :: processArgs m cwd true rest
      else if files then .str (processArg m cwd s) :: processArgs m cwd files rest
      else a :: processArgs m cwd files rest
    | .other => a :: processArgs m cwd files rest

/-- The `cwd` field of `GitCommandOptions`; the empty string models an absent
`cwd` (the source substitutes `''` via `options.cwd || ''`). -/
structure GitOptions where
  cwd : String
deriving DecidableEq

/-- The outgoing half of `VslsGuestService.git` (src/vsls/guest.ts:78-112):
normalize the cwd with a leading slash, rewrite it through the
shared-to-local map (keep the original on a miss), then scan the arguments. -/
def guestGitPrepare (m : PathMappings) (opts : GitOptions) (args : List GitArg) :
    GitOptions × List GitArg :=
  let cwd := normalizePathLead opts.cwd
  let newOpts : GitOptions :=
    match mapGet m.sharedToLocal cwd with
    | some localCwd => { cwd := localCwd }
    | none => opts
  (newOpts, processArgs m cwd false args)

/-- Wire response of the run-command request: the payload string (a byte
string when `isBuffer` is set) and the binary flag
(src/vsls/host.ts:74-78). -/
structure GitCommandResponse where
  data : String
  isBuffer : Bool
deriving DecidableEq

/-- The incoming half of `VslsGuestService.git` (src/vsls/guest.ts:116-129):
a binary-flagged payload is decoded (byte-faithfully, modelled as identity)
and returned; non-empty text is rewritten through `_localPathsRegex`.  The
mapping cache is built at this point, so `_localPathsRegex` is defined. -/
def guestHandleResponse (m : PathMappings) (r : GitCommandResponse) : String :=
  if r.isBuffer then r.data
  else if 0 < strLength r.data then
    regexReplace (localAlts m) (mapGet m.localToShared) r.data
  else r.data

/-- The shared-to-local rewrite used by `VslsGuestService.fileExists`
(src/vsls/guest.ts:152-157): test, then replace the normalized path through
the shared-to-local map with fallback to the matched text. -/
def rewriteSharedToLocal (m : PathMappings) (p : String) : String :=
  if regexTest (sharedAlts m) p then
    regexReplace (sharedAlts m) (mapGet m.sharedToLocal) (normalizePath p)
  else p

/-- Embeds `VslsGuestService.fileExists` (src/vsls/guest.ts:146-166) together
with its use of the session state: the method dereferences
`this._sharedPathsRegex!` without calling `cachePathMapping` first, so with an
unbuilt cache (`none`) it fails (a TypeError in JavaScript, modelled as
`Except.error`); with a built cache it rewrites the repo path and returns the
host's boolean.  The `ensureCase` option is forwarded opaquely and elided. -/
def fileExists (cache : Option PathMappings) (hostExists : String → String → Bool)
    (repoPath fileName : String) : Except Unit Bool :=
  match cache with
  | none => Except.error ()
  | some m => Except.ok (hostExists (rewriteSharedToLocal m repoPath) fileName)

/-- One repository known to the host: its real path, its workspace folder's
real root path, and the `root`/`closed` flags
(src/git/models/repository.ts:89-110). -/
structure RepoRecord where
  path : String
  folderRoot : String
  root : Bool
  closed : Bool
deriving DecidableEq

/-- Embeds `Repository.normalizedPath` (src/git/models/repository.ts:107):
the repository path with a trailing slash ensured, lowercased. -/
def repoNormalizedPath (path : String) : String :=
  strToLower (if strEndsWith path "/" then path else path ++ "/")

/-- One descriptor of the repositories-in-folder response
(src/vsls/host.ts:98-103); `folderUri` and `path` both carry the converted
virtual path (the URI scheme is elided throughout). -/
structure RepositoryProxy where
  folderUri : String
  path : String
  root : Bool
  closed : Bool
deriving DecidableEq

/-- Embeds `VslsHostService.onRepositoriesInFolderRequest`
(src/vsls/host.ts:86-110): convert the requested virtual folder URI to a real
path, normalize it (trailing slash stripped, lowercased), keep the
repositories whose `normalizedPath` starts with it, and convert each
survivor's folder back to virtual form, preserving iteration order. -/
def onRepositoriesInFolderRequest (folders : List WorkspaceFolder)
    (repos : List RepoRecord) (folderUri : String) : List RepositoryProxy :=
  let normalized := strToLower (normalizePathStrip (convertSharedUriToLocal folders folderUri))
  repos.filterMap fun r =>
    if strStartsWith (repoNormalizedPath r.path) normalized then
      let vslsUri := convertLocalUriToShared folders r.folderRoot
      some { folderUri := vslsUri, path := vslsUri, root := r.root, closed := r.closed }
    else none

/-- Follows the claim's words (C7), for comparison with the source behavior
`processArg`: strip the single leading separator first, then apply the
further rewriting to the STRIPPED token. -/
def processArgSpec (m : PathMappings) (cwd : String) (arg : String) : String :=
  let stripped := if leadingSepTest arg && cwd == "/~0" then strDrop arg 1 else arg
  if regexTest (sharedAlts m) stripped then
    regexReplace (sharedAlts m) (mapGet m.sharedToLocal) (normalizePath stripped)
  else stripped

/-! ## Auxiliary lemmas about the string primitives -/

theorem strMk_data (s : String) : String.mk s.data = s := by
  cases s
  rfl

theorem strAppend_empty (s : String) : s ++ "" = s := by
  cases s
  show String.mk _ = _
  simp

theorem isPrefixL_iff (a : List Char) : ∀ b, isPrefixL a b = true ↔ ∃ t, a ++ t = b := by
  induction a with
  | nil =>
    intro b
    simp [isPrefixL]
  | cons x xs ih =>
    intro b
    cases b with
    | nil =>
      simp [isPrefixL]
    | cons y ys =>
      simp [isPrefixL, ih ys]

theorem isPrefixL_append_cancel (x : List Char) : ∀ u v, isPrefixL (x ++ u) (x ++ v) = isPrefixL u v := by
  induction x with
  | nil => intro u v; rfl
  | cons c cs ih => intro u v; simp [isPrefixL, ih]

theorem isSuffixL_iff (a b : List Char) : isSuffixL a b = true ↔ ∃ t, t ++ a = b := by
  unfold isSuffixL
  rw [isPrefixL_iff]
  constructor
  · rintro ⟨t, ht⟩
    refine ⟨t.reverse, ?_⟩
    have := congrArg List.reverse ht
    simpa using this
  · rintro ⟨t, ht⟩
    refine ⟨t.reverse, ?_⟩
    have := congrArg List.reverse ht
    simpa using this

theorem isSuffixL_append_cancel (a b c : List Char) :
    isSuffixL (a ++ c) (b ++ c) = isSuffixL a b := by
  unfold isSuffixL
  rw [List.reverse_append, List.reverse_append, isPrefixL_append_cancel]

theorem mem_of_isSuffixL {a b : List Char} {x : Char} (h : isSuffixL a b = true)
    (hx : x ∈ a) : x ∈ b := by
  obtain ⟨t, ht⟩ := (isSuffixL_iff a b).1 h
  subst ht
  exact List.mem_append_right t hx

theorem digitChar_isDigit {n : Nat} (h : n < 10) : (Nat.digitChar n).isDigit = true := by
  interval_cases n <;> decide

theorem natCharsAux_all_digit : ∀ fuel n : Nat, ∀ c ∈ natCharsAux fuel n, c.isDigit = true := by
  intro fuel
  induction fuel with
  | zero =>
    intro n c hc
    simp [natCharsAux] at hc
  | succ fuel ih =>
    intro n c hc
    simp only [natCharsAux] at hc
    by_cases h10 : n < 10
    · rw [if_pos h10] at hc
      simp only [List.mem_singleton] at hc
      subst hc
      exact digitChar_isDigit h10
    · rw [if_neg h10] at hc
      rw [List.mem_append] at hc
      rcases hc with hc | hc
      · exact ih (n / 10) c hc
      · simp only [List.mem_singleton] at hc
        subst hc
        exact digitChar_isDigit (Nat.mod_lt n (by decide))

theorem natChars_all_digit (n : Nat) : ∀ c ∈ natChars n, c.isDigit = true :=
  natCharsAux_all_digit (n + 1) n

theorem natChars_ne_nil (n : Nat) : natChars n ≠ [] := by
  show natCharsAux (n + 1) n ≠ []
  simp only [natCharsAux]
  split
  · simp
  · simp

theorem aliasOf_data (f : WorkspaceFolder) :
    (aliasOf f).data = '/' :: '~' :: natChars f.index := by
  show ("/~" ++ natStr f.index).data = _
  rw [String.data_append]
  rfl

theorem strDrop_append (s t : String) : strDrop (s ++ t) (strLength s) = t := by
  unfold strDrop strLength
  rw [String.data_append, List.drop_left]

theorem not_suffix_alias {R : List Char} (i : Nat) (h1 : R.head? = some '/')
    (h2 : '~' ∉ R) : isSuffixL R ('/' :: '~' :: natChars i) = false := by
  cases hs : isSuffixL R ('/' :: '~' :: natChars i) with
  | false => rfl
  | true =>
    exfalso
    obtain ⟨t, ht⟩ := (isSuffixL_iff _ _).1 hs
    cases R with
    | nil => simp at h1
    | cons r rs =>
      simp only [List.head?_cons, Option.some.injEq] at h1
      subst h1
      match t, ht with
      | [], ht =>
        rw [List.nil_append] at ht
        exact h2 (ht ▸ List.mem_cons_of_mem _ (List.mem_cons_self _ _))
      | [c], ht =>
        simp only [List.cons_append, List.nil_append, List.cons.injEq] at ht
        exact absurd ht.2.1 (by decide)
      | c :: d :: t2, ht =>
        simp only [List.cons_append, List.cons.injEq] at ht
        have hmem : '/' ∈ natChars i := by
          rw [← ht.2.2]
          exact List.mem_append_right t2 (List.mem_cons_self _ _)
        have := natChars_all_digit i '/' hmem
        simp at this

theorem alias_not_suffix {R : List Char} (i : Nat) (h : '~' ∉ R) :
    isSuffixL ('/' :: '~' :: natChars i) R = false := by
  cases hs : isSuffixL ('/' :: '~' :: natChars i) R with
  | false => rfl
  | true =>
    exact absurd (mem_of_isSuffixL hs (List.mem_cons_of_mem _ (List.mem_cons_self _ _))) h

theorem rawLocalToShared_eq (folders : List WorkspaceFolder) (f : WorkspaceFolder)
    (rel : String) (hGW : getWorkspaceFolder folders (f.rootPath ++ rel) = some f) :
    rawLocalToShared folders (f.rootPath ++ rel) = aliasOf f ++ rel := by
  unfold rawLocalToShared
  rw [hGW]
  show aliasOf f ++ strDrop (f.rootPath ++ rel) (strLength f.rootPath) = aliasOf f ++ rel
  rw [strDrop_append]

theorem toVirtual_eq (folders : List WorkspaceFolder) (f : WorkspaceFolder) (rel : String)
    (habs : f.rootPath.data.head? = some '/')
    (htilde : '~' ∉ f.rootPath.data)
    (hGW : getWorkspaceFolder folders (f.rootPath ++ rel) = some f) :
    convertLocalUriToShared folders (f.rootPath ++ rel) = aliasOf f ++ rel := by
  have hshared := rawLocalToShared_eq folders f rel hGW
  have hends : strEndsWith (aliasOf f ++ rel) (f.rootPath ++ rel) = false := by
    unfold strEndsWith
    rw [String.data_append, String.data_append, isSuffixL_append_cancel, aliasOf_data]
    exact not_suffix_alias f.index habs htilde
  have hstarts : strStartsWith (aliasOf f ++ rel) "/~" = true := by
    unfold strStartsWith
    rw [String.data_append, aliasOf_data]
    show isPrefixL ['/', '~'] _ = true
    simp [isPrefixL]
  simp only [convertLocalUriToShared, hshared, hends, hstarts]
  simp

theorem isVslsRoot_alias_append (f : WorkspaceFolder) (rel : String)
    (hrel : rel.data.head? = some '/') :
    isVslsRoot (aliasOf f ++ rel) = false := by
  obtain ⟨rs, hrs⟩ : ∃ rs, rel.data = '/' :: rs := by
    cases hd : rel.data with
    | nil => rw [hd] at hrel; simp at hrel
    | cons c cs =>
      rw [hd] at hrel
      simp only [List.head?_cons, Option.some.injEq] at hrel
      exact ⟨cs, by rw [hrel]⟩
  have hdata : (aliasOf f ++ rel).data = '/' :: '~' :: (natChars f.index ++ rel.data) := by
    rw [String.data_append, aliasOf_data]
    rfl
  have hall : (natChars f.index ++ rel.data).all Char.isDigit = false := by
    rw [hrs]
    simp [List.all_append]
  simp only [isVslsRoot, hdata, hall, Bool.and_false]

theorem isVslsRoot_alias (f : WorkspaceFolder) : isVslsRoot (aliasOf f) = true := by
  have h1 : (natChars f.index).isEmpty = false := by
    cases hn : natChars f.index with
    | nil => exact absurd hn (natChars_ne_nil f.index)
    | cons c cs => rfl
  have h2 : (natChars f.index).all Char.isDigit = true := by
    rw [List.all_eq_true]
    exact fun c hc => natChars_all_digit f.index c hc
  simp only [isVslsRoot, aliasOf_data, h1, h2]
  rfl

theorem toReal_eq (folders : List WorkspaceFolder) (f : WorkspaceFolder) (rel : String)
    (htilde : '~' ∉ f.rootPath.data)
    (hrel : rel.data.head? = some '/')
    (hraw : rawSharedToLocal folders (aliasOf f ++ rel) = f.rootPath ++ rel) :
    convertSharedUriToLocal folders (aliasOf f ++ rel) = f.rootPath ++ rel := by
  have hroot := isVslsRoot_alias_append f rel hrel
  have hends : strEndsWith (f.rootPath ++ rel) (aliasOf f ++ rel) = false := by
    unfold strEndsWith
    rw [String.data_append, String.data_append, isSuffixL_append_cancel, aliasOf_data]
    exact alias_not_suffix f.index htilde
  simp only [convertSharedUriToLocal, hroot, Bool.false_eq_true, if_false,
    convertSharedUriToLocalCore, hraw, hends]

theorem replaceFromAux_miss (alts : List String) (lookup : String → Option String)
    (h : ∀ k, lookup k = none) :
    ∀ fuel s, s.length ≤ fuel → replaceFromAux alts lookup fuel s = s := by
  intro fuel
  induction fuel with
  | zero =>
    intro s hs
    have hnil : s = [] := List.length_eq_zero.1 (Nat.le_zero.1 hs)
    subst hnil
    show (match firstAltLen alts [] with
      | some _ => ((lookup "").getD "").data
      | none => ([] : List Char)) = []
    cases firstAltLen alts [] with
    | none => rfl
    | some n => simp [h ""]
  | succ fuel ih =>
    intro s hs
    cases s with
    | nil =>
      show (match firstAltLen alts [] with
        | some _ => ((lookup "").getD "").data
        | none => ([] : List Char)) = []
      cases firstAltLen alts [] with
      | none => rfl
      | some n => simp [h ""]
    | cons c cs =>
      have hcs : cs.length ≤ fuel := by
        simp only [List.length_cons] at hs
        omega
      simp only [replaceFromAux]
      cases hfa : firstAltLen alts (c :: cs) with
      | none =>
        rw [ih cs hcs]
      | some n =>
        cases n with
        | zero =>
          simp only [h "", Option.getD]
          rw [ih cs hcs]
          rfl
        | succ m =>
          simp only [h _, Option.getD]
          rw [ih (List.drop m cs) (Nat.le_trans (by simp [List.length_drop]) hcs)]
          show (String.mk (List.take (m + 1) (c :: cs))).data ++ List.drop m cs = c :: cs
          rw [List.take_succ_cons]
          show (c :: List.take m cs) ++ List.drop m cs = c :: cs
          rw [List.cons_append, List.take_append_drop]

theorem replaceFrom_miss (alts : List String) (lookup : String → Option String)
    (h : ∀ k, lookup k = none) (s : List Char) : replaceFrom alts lookup s = s :=
  replaceFromAux_miss alts lookup h s.length s (Nat.le_refl _)

theorem replaceFromAux_nomatch (alts : List String) (lookup : String → Option String) :
    ∀ fuel s, regexTestFrom alts s = false → replaceFromAux alts lookup fuel s = s := by
  intro fuel
  induction fuel with
  | zero =>
    intro s hs
    cases s with
    | nil =>
      show (match firstAltLen alts [] with
        | some _ => ((lookup "").getD "").data
        | none => ([] : List Char)) = []
      have : firstAltLen alts [] = none := by
        simp only [regexTestFrom] at hs
        exact Option.not_isSome_iff_eq_none.1 (by simp [hs])
      rw [this]
    | cons c cs => rfl
  | succ fuel ih =>
    intro s hs
    cases s with
    | nil =>
      show (match firstAltLen alts [] with
        | some _ => ((lookup "").getD "").data
        | none => ([] : List Char)) = []
      have : firstAltLen alts [] = none := by
        simp only [regexTestFrom] at hs
        exact Option.not_isSome_iff_eq_none.1 (by simp [hs])
      rw [this]
    | cons c cs =>
      simp only [regexTestFrom, Bool.or_eq_false_iff] at hs
      have hfa : firstAltLen alts (c :: cs) = none :=
        Option.not_isSome_iff_eq_none.1 (by simp [hs.1])
      simp only [replaceFromAux, hfa]
      rw [ih cs hs.2]

theorem replaceFrom_nomatch (alts : List String) (lookup : String → Option String)
    (s : List Char) (hs : regexTestFrom alts s = false) : replaceFrom alts lookup s = s :=
  replaceFromAux_nomatch alts lookup s.length s hs

theorem processArgs_no_dashdash (m : PathMappings) (cwd : String) :
    ∀ pre : List GitArg, GitArg.str "--" ∉ pre →
      ∀ rest, processArgs m cwd false (pre ++ rest) = pre ++ processArgs m cwd false rest := by
  intro pre
  induction pre with
  | nil => intro _ rest; rfl
  | cons a pre ih =>
    intro hpre rest
    have ha : a ≠ GitArg.str "--" := fun he => hpre (he ▸ List.mem_cons_self _ _)
    have hpre2 : GitArg.str "--" ∉ pre := fun hm => hpre (List.mem_cons_of_mem _ hm)
    cases a with
    | other =>
      simp only [List.cons_append, processArgs]
      exact congrArg (fun l => GitArg.other :: l) (ih hpre2 rest)
    | str s =>
      have hs : s ≠ "--" := fun he => ha (by rw [he])
      simp only [List.cons_append, processArgs, if_neg hs, Bool.false_eq_true, if_false]
      exact congrArg (fun l => GitArg.str s :: l) (ih hpre2 rest)

/-! ## Claim theorems -/

/-- C1: for every real absolute path `P` strictly under a known collaboration
folder (root `R`, index `i`, with `P = R ++ rel` for a separator-led `rel`),
converting `P` to virtual form, back to real form, and to virtual form again
yields the same result as converting `P` to virtual form once:
`toVirtual(toReal(toVirtual(P))) == toVirtual(P)`.  The hypotheses state that
the session is well formed: the folder root is an absolute real path that does
not use the `~` character, folder lookup of `P` finds the folder, and the
underlying reverse converter resolves this folder's alias. -/
theorem c1_roundtrip (folders : List WorkspaceFolder) (f : WorkspaceFolder) (rel : String)
    (habs : f.rootPath.data.head? = some '/')
    (htilde : '~' ∉ f.rootPath.data)
    (hrel : rel.data.head? = some '/')
    (hGW : getWorkspaceFolder folders (f.rootPath ++ rel) = some f)
    (hraw : rawSharedToLocal folders (aliasOf f ++ rel) = f.rootPath ++ rel) :
    convertLocalUriToShared folders
        (convertSharedUriToLocal folders (convertLocalUriToShared folders (f.rootPath ++ rel))) =
      convertLocalUriToShared folders (f.rootPath ++ rel) := by
  rw [toVirtual_eq folders f rel habs htilde hGW, toReal_eq folders f rel htilde hrel hraw,
    toVirtual_eq folders f rel habs htilde hGW]

/-- Witness for C1: one collaboration folder `/home/a` with index 0 and the
real path `/home/a/sub` beneath it. -/
theorem c1_roundtrip_witness :
    (("/home/a" : String).data.head? = some '/') ∧
    ('~' ∉ ("/home/a" : String).data) ∧
    (("/sub" : String).data.head? = some '/') ∧
    (getWorkspaceFolder [⟨0, "/home/a"⟩] ("/home/a" ++ "/sub") = some ⟨0, "/home/a"⟩) ∧
    (rawSharedToLocal [⟨0, "/home/a"⟩] (aliasOf ⟨0, "/home/a"⟩ ++ "/sub") = "/home/a" ++ "/sub") ∧
    convertLocalUriToShared [⟨0, "/home/a"⟩]
        (convertSharedUriToLocal [⟨0, "/home/a"⟩]
          (convertLocalUriToShared [⟨0, "/home/a"⟩] (("/home/a" : String) ++ "/sub"))) =
      convertLocalUriToShared [⟨0, "/home/a"⟩] (("/home/a" : String) ++ "/sub") :=
  ⟨by decide, by decide, by decide, by decide, by decide,
    c1_roundtrip [⟨0, "/home/a"⟩] ⟨0, "/home/a"⟩ "/sub"
      (by decide) (by decide) (by decide) (by decide) (by decide)⟩

/-- C5: for a collaboration folder whose root real path equals the path being
converted, the virtual form is exactly `/~<index>` — no trailing separator and
no trailing content. -/
theorem c5_root_alias (folders : List WorkspaceFolder) (f : WorkspaceFolder)
    (habs : f.rootPath.data.head? = some '/')
    (htilde : '~' ∉ f.rootPath.data)
    (hGW : getWorkspaceFolder folders f.rootPath = some f) :
    convertLocalUriToShared folders f.rootPath = "/~" ++ natStr f.index := by
  have h := toVirtual_eq folders f "" habs htilde (by rw [strAppend_empty]; exact hGW)
  rw [strAppend_empty, strAppend_empty] at h
  exact h

/-- Witness for C5: the folder `/home/a` with index 0 converts to exactly
`/~0`. -/
theorem c5_root_alias_witness :
    (("/home/a" : String).data.head? = some '/') ∧
    ('~' ∉ ("/home/a" : String).data) ∧
    (getWorkspaceFolder [⟨0, "/home/a"⟩] "/home/a" = some ⟨0, "/home/a"⟩) ∧
    convertLocalUriToShared [⟨0, "/home/a"⟩] "/home/a" = "/~" ++ natStr 0 :=
  ⟨by decide, by decide, by decide,
    c5_root_alias [⟨0, "/home/a"⟩] ⟨0, "/home/a"⟩ (by decide) (by decide) (by decide)⟩

/-- C6: a bare virtual root alias `/~i` (no trailing separator) is
special-cased by the reverse conversion: a trailing separator is appended and
the result is delegated to the underlying shared-to-local conversion, so the
bare alias resolves to the folder's real root (with the appended trailing
separator). -/
theorem c6_bare_alias (folders : List WorkspaceFolder) (f : WorkspaceFolder)
    (htilde : '~' ∉ f.rootPath.data)
    (hraw : rawSharedToLocal folders (aliasOf f ++ "/") = f.rootPath ++ "/") :
    convertSharedUriToLocal folders (aliasOf f) =
        convertSharedUriToLocalCore folders (aliasOf f ++ "/") ∧
      convertSharedUriToLocal folders (aliasOf f) = f.rootPath ++ "/" := by
  have hdeleg : convertSharedUriToLocal folders (aliasOf f) =
      convertSharedUriToLocalCore folders (aliasOf f ++ "/") := by
    unfold convertSharedUriToLocal
    rw [isVslsRoot_alias f]
    simp
  refine ⟨hdeleg, ?_⟩
  rw [hdeleg]
  have hends : strEndsWith (f.rootPath ++ "/") (aliasOf f ++ "/") = false := by
    unfold strEndsWith
    rw [String.data_append, String.data_append, isSuffixL_append_cancel, aliasOf_data]
    exact alias_not_suffix f.index htilde
  simp only [convertSharedUriToLocalCore, hraw, hends, Bool.false_eq_true, if_false]

/-- Witness for C6: the bare alias `/~0` of the folder `/home/a` resolves to
`/home/a/`. -/
theorem c6_bare_alias_witness :
    ('~' ∉ ("/home/a" : String).data) ∧
    (rawSharedToLocal [⟨0, "/home/a"⟩] (aliasOf ⟨0, "/home/a"⟩ ++ "/") = "/home/a" ++ "/") ∧
    (convertSharedUriToLocal [⟨0, "/home/a"⟩] (aliasOf ⟨0, "/home/a"⟩) =
        convertSharedUriToLocalCore [⟨0, "/home/a"⟩] (aliasOf ⟨0, "/home/a"⟩ ++ "/") ∧
      convertSharedUriToLocal [⟨0, "/home/a"⟩] (aliasOf ⟨0, "/home/a"⟩) =
        ("/home/a" : String) ++ "/") :=
  ⟨by decide, by decide,
    c6_bare_alias [⟨0, "/home/a"⟩] ⟨0, "/home/a"⟩ (by decide) (by decide)⟩

/-- C3: a binary-flagged tunneled command response is returned by the guest
with the decoded payload unchanged: no path substitution is applied, whatever
the payload bytes contain (the byte-faithful `binary` decode is modelled as
the identity on the payload string). -/
theorem c3_binary_exempt (m : PathMappings) (data : String) :
    guestHandleResponse m { data := data, isBuffer := true } = data := rfl

/-- C4: a path rewrite whose mapping-table lookups miss leaves its input
unchanged in both substitution directions, and no error is raised (the
rewrites are total): under lookup misses — an entirely unmapped table or no
matcher match at all — `"/not/mapped/path"`-like inputs come back verbatim. -/
theorem c4_lookup_miss (m : PathMappings) (s : String)
    (hnorm : normalizePath s = s)
    (hshared : (∀ k, mapGet m.sharedToLocal k = none) ∨ regexTest (sharedAlts m) s = false)
    (hlocal : (∀ k, mapGet m.localToShared k = none) ∨ regexTest (localAlts m) s = false) :
    rewriteSharedToLocal m s = s ∧
      guestHandleResponse m { data := s, isBuffer := false } = s := by
  constructor
  · unfold rewriteSharedToLocal
    rcases hshared with hmiss | hnot
    · cases ht : regexTest (sharedAlts m) s with
      | false => simp [ht]
      | true =>
        simp only [ht, if_true]
        rw [hnorm]
        unfold regexReplace
        rw [replaceFrom_miss _ _ hmiss]
    · simp [hnot]
  · unfold guestHandleResponse
    simp only [Bool.false_eq_true, if_false]
    rcases hlocal with hmiss | hnot
    · by_cases h0 : 0 < strLength s
      · simp only [if_pos h0]
        unfold regexReplace
        rw [replaceFrom_miss _ _ hmiss]
      · simp [h0]
    · by_cases h0 : 0 < strLength s
      · simp only [if_pos h0]
        unfold regexReplace
        rw [replaceFrom_nomatch _ _ _ hnot]
      · simp [h0]

/-- Witness for C4: the table `{"/home/a" -> "/~0"}` has no entry for
`/not/mapped/path`, whose rewrite in either direction returns it verbatim. -/
theorem c4_lookup_miss_witness :
    (normalizePath "/not/mapped/path" = "/not/mapped/path") ∧
    (regexTest (sharedAlts (cachePathMapping [("/home/a", "/~0")])) "/not/mapped/path" = false) ∧
    (regexTest (localAlts (cachePathMapping [("/home/a", "/~0")])) "/not/mapped/path" = false) ∧
    (rewriteSharedToLocal (cachePathMapping [("/home/a", "/~0")]) "/not/mapped/path" =
        "/not/mapped/path" ∧
      guestHandleResponse (cachePathMapping [("/home/a", "/~0")])
          { data := "/not/mapped/path", isBuffer := false } = "/not/mapped/path") :=
  ⟨by decide, by decide, by decide,
    c4_lookup_miss (cachePathMapping [("/home/a", "/~0")]) "/not/mapped/path"
      (by decide) (Or.inr (by decide)) (Or.inr (by decide))⟩

/-- C7 (amended): for a string token after the literal `--` separator, when
the normalized PRE-rewrite cwd equals the root alias `/~0` and the token
begins with a path separator, the single leading separator is stripped ONLY
when the token does not match the virtual-path matcher; when it matches, the
substitution of the normalized UNSTRIPPED token overwrites the stripped value
(the strip is discarded); tokens are never stripped when that cwd differs
from `/~0`. -/
theorem c7_strip_semantics (m : PathMappings) (cwd : String) (pre post : List GitArg)
    (s : String) (hpre : GitArg.str "--" ∉ pre) (hs : s ≠ "--") :
    processArgs m cwd false (pre ++ GitArg.str "--" :: GitArg.str s :: post) =
      pre ++ GitArg.str "--" ::
        GitArg.str
          (if regexTest (sharedAlts m) s then
            regexReplace (sharedAlts m) (mapGet m.sharedToLocal) (normalizePath s)
          else if leadingSepTest s && (cwd == "/~0") then strDrop s 1 else s) ::
        processArgs m cwd true post := by
  rw [processArgs_no_dashdash m cwd pre hpre]
  have h1 : processArgs m cwd false (GitArg.str "--" :: GitArg.str s :: post) =
      GitArg.str "--" :: GitArg.str (processArg m cwd s) :: processArgs m cwd true post := by
    simp [processArgs, if_neg hs]
  rw [h1]
  rfl

/-- Witness for C7 (amended): table `{"/home/a" -> "/~0"}`, cwd `/~0`; the
token `/home/b/x` does not match the matcher, so its leading slash is
stripped. -/
theorem c7_strip_semantics_witness :
    (GitArg.str "--" ∉ [GitArg.str "diff"]) ∧
    (("/home/b/x" : String) ≠ "--") ∧
    processArgs (cachePathMapping [("/home/a", "/~0")]) "/~0" false
        ([GitArg.str "diff"] ++ GitArg.str "--" :: GitArg.str "/home/b/x" :: []) =
      [GitArg.str "diff"] ++ GitArg.str "--" ::
        GitArg.str
          (if regexTest (sharedAlts (cachePathMapping [("/home/a", "/~0")])) "/home/b/x" then
            regexReplace (sharedAlts (cachePathMapping [("/home/a", "/~0")]))
              (mapGet (cachePathMapping [("/home/a", "/~0")]).sharedToLocal)
              (normalizePath "/home/b/x")
          else if leadingSepTest "/home/b/x" && (("/~0" : String) == "/~0") then
            strDrop "/home/b/x" 1
          else "/home/b/x") ::
        processArgs (cachePathMapping [("/home/a", "/~0")]) "/~0" true [] :=
  ⟨by decide, by decide,
    c7_strip_semantics (cachePathMapping [("/home/a", "/~0")]) "/~0" [GitArg.str "diff"] []
      "/home/b/x" (by decide) (by decide)⟩

/-- Counterexample to C7 as stated: table `{"/home/a" -> "/~0"}`, cwd `/~0`,
argument list `["diff", "--", "/~0/x"]`.  The claim predicts the leading
separator is stripped before any further rewriting, which would produce the
token `~0/x` (`processArgSpec`); the code produces `/home/a/x`, whose leading
separator was never removed. -/
theorem c7_cex :
    processArgs (cachePathMapping [("/home/a", "/~0")]) "/~0" false
        [GitArg.str "diff", GitArg.str "--", GitArg.str "/~0/x"] =
      [GitArg.str "diff", GitArg.str "--", GitArg.str "/home/a/x"] ∧
    processArgSpec (cachePathMapping [("/home/a", "/~0")]) "/~0" "/~0/x" = "~0/x" ∧
    ("/home/a/x" : String) ≠ "~0/x" := by
  refine ⟨by decide, by decide, by decide⟩

/-- C8: only argument tokens after a literal `--` token are candidates for
path rewriting — every argument at or before the first `--` (and the `--`
itself) is passed through unchanged, regardless of its content; moreover an
argument list with no `--` at all is passed through entirely unchanged. -/
theorem c8_frame (m : PathMappings) (cwd : String) (pre post : List GitArg)
    (hpre : GitArg.str "--" ∉ pre) :
    processArgs m cwd false (pre ++ GitArg.str "--" :: post) =
        pre ++ GitArg.str "--" :: processArgs m cwd true post ∧
      processArgs m cwd false pre = pre := by
  constructor
  · rw [processArgs_no_dashdash m cwd pre hpre]
    have h1 : processArgs m cwd false (GitArg.str "--" :: post) =
        GitArg.str "--" :: processArgs m cwd true post := by
      simp [processArgs]
    rw [h1]
  · have h := processArgs_no_dashdash m cwd pre hpre []
    have h2 : processArgs m cwd false [] = [] := rfl
    rw [h2, List.append_nil] at h
    exact h

/-- Witness for C8: path-looking tokens `/~0/x` before the `--` separator
are sent unchanged. -/
theorem c8_frame_witness :
    (GitArg.str "--" ∉ [GitArg.str "status", GitArg.str "/~0/x", GitArg.other]) ∧
    (processArgs (cachePathMapping [("/home/a", "/~0")]) "/~0" false
        ([GitArg.str "status", GitArg.str "/~0/x", GitArg.other] ++
          GitArg.str "--" :: [GitArg.str "/~0/y"]) =
      [GitArg.str "status", GitArg.str "/~0/x", GitArg.other] ++
        GitArg.str "--" ::
          processArgs (cachePathMapping [("/home/a", "/~0")]) "/~0" true [GitArg.str "/~0/y"] ∧
      processArgs (cachePathMapping [("/home/a", "/~0")]) "/~0" false
          [GitArg.str "status", GitArg.str "/~0/x", GitArg.other] =
        [GitArg.str "status", GitArg.str "/~0/x", GitArg.other]) :=
  ⟨by decide,
    c8_frame (cachePathMapping [("/home/a", "/~0")]) "/~0"
      [GitArg.str "status", GitArg.str "/~0/x", GitArg.other] [GitArg.str "/~0/y"] (by decide)⟩

/-- C9 (amended): with zero collaboration folders the cache build succeeds
with empty local-to-shared and shared-to-local maps; the compiled matchers
match the empty string at every position (rather than matching nothing), but
every substitution still leaves its input unchanged, because each empty match
is replaced by the empty string after its lookup misses. -/
theorem c9_empty_cache :
    (cachePathMapping []).localToShared = [] ∧
      (cachePathMapping []).sharedToLocal = [] ∧
      ∀ s : String,
        regexReplace (sharedAlts (cachePathMapping []))
            (mapGet (cachePathMapping []).sharedToLocal) s = s ∧
          regexReplace (localAlts (cachePathMapping []))
            (mapGet (cachePathMapping []).localToShared) s = s := by
  refine ⟨rfl, rfl, fun s => ⟨?_, ?_⟩⟩
  · unfold regexReplace
    rw [replaceFrom_miss (sharedAlts (cachePathMapping []))
      (mapGet (cachePathMapping []).sharedToLocal) (fun k => rfl)]
  · unfold regexReplace
    rw [replaceFrom_miss (localAlts (cachePathMapping []))
      (mapGet (cachePathMapping []).localToShared) (fun k => rfl)]

/-- Counterexample to C9 as stated: the matchers built from zero folders do
NOT match nothing — the compiled pattern `()` matches (the empty string) on
every input, so both matchers test true on `/x`. -/
theorem c9_cex :
    regexTest (sharedAlts (cachePathMapping [])) "/x" = true ∧
      regexTest (localAlts (cachePathMapping [])) "/x" = true := by
  refine ⟨by decide, by decide⟩

/-- C10: the guest's `fileExists` does not build the path-mapping cache
first; with the cache unbuilt it fails by dereferencing the absent
virtual-path matcher (modelled as an error result), and with the cache built
it always reaches the host request and returns the host's boolean. -/
theorem c10_fileExists_cache (hostExists : String → String → Bool) (rp fn : String) :
    fileExists none hostExists rp fn = Except.error () ∧
      ∀ m : PathMappings,
        fileExists (some m) hostExists rp fn =
          Except.ok (hostExists (rewriteSharedToLocal m rp) fn) :=
  ⟨rfl, fun _ => rfl⟩

/-- C2 evaluated at the failing input: collaboration folders `/home/a`
(index 0) and `/home/ab` (index 1), host repositories rooted at `/home/a/sub`
and `/home/ab`, and a repositories-in-folder request for the virtual folder
`/~0` (real path `/home/a`).  The response contains BOTH repositories: the
sibling rooted at `/home/ab` is included, because its normalized path
`/home/ab/` starts with the trailing-slash-stripped needle `/home/a`. -/
theorem c2_sibling_included :
    onRepositoriesInFolderRequest [⟨0, "/home/a"⟩, ⟨1, "/home/ab"⟩]
        [⟨"/home/a/sub", "/home/a", true, false⟩, ⟨"/home/ab", "/home/ab", true, false⟩]
        "/~0" =
      [⟨"/~0", "/~0", true, false⟩, ⟨"/~1", "/~1", true, false⟩] := by
  decide
